import Mathlib

/-!
Shallow embedding of `src/rwv/loc_graph.py` (Race-Walking-Visualization).

Conventions used throughout:
* Python arbitrary-precision integers are modelled as `ℤ` where they can be
  negative (bib numbers, judge ids) and as `ℕ` for the selection mask, whose
  reachable values are the three-bit masks `0..7`.
* Timestamps are modelled as `ℤ`: the code converts datetimes to seconds since
  the epoch (`astype("int64") // 10**9`) before interpolating, so the graph
  logic only ever sees integer seconds.
* Floating point LOC values are modelled as `ℚ`.
* Matplotlib artists are modelled by the state the graph code reads and
  writes: a line keeps its visibility and its data, a scatter keeps its
  visibility, label and data, an annotation keeps position, text, styling and
  visibility.
* Fallible Python code (dict lookups that can raise `KeyError`, the
  `RuntimeError` raise in `plot`) is modelled with `Except String`.
-/

/-- `JudgeCallType` enum of `loc_graph.py` (`BENT_KNEE = auto()`, `LOC = auto()`). -/
inductive JudgeCallType where
  | BENT_KNEE
  | LOC

deriving DecidableEq, Repr

/-- A call-type key as it appears in the `judge_data` input dictionaries.
Python dict keys are not restricted to the `JudgeCallType` enum, so the input
key type has an extra `other` constructor for any unrecognized key; `plot`
compares keys against `JudgeCallType.LOC` and `JudgeCallType.BENT_KNEE` and
raises on anything else. -/
inductive CallKey where
  | LOC
  | BENT_KNEE
  | other

deriving DecidableEq, Repr

/-- `JudgeCallPlotGroup.Selection.NONE = 0b000`. -/
def Selection.NONE : ℕ := 0

/-- `JudgeCallPlotGroup.Selection.TYPE = 0b001`. -/
def Selection.TYPE : ℕ := 1

/-- `JudgeCallPlotGroup.Selection.JUDGE = 0b010`. -/
def Selection.JUDGE : ℕ := 2

/-- `JudgeCallPlotGroup.Selection.ATHLETE = 0b100`. -/
def Selection.ATHLETE : ℕ := 4

/-- `JudgeCallPlotGroup.Selection.ALL = 0b111`. -/
def Selection.ALL : ℕ := 7

/-- Python `m & (~b)` on nonnegative arbitrary-precision integers: clear in `m`
every bit set in `b`.  Written as `m ^^^ (m &&& b)` so that it stays in `ℕ` and
reduces in the kernel; `clearBits_eq_land_lnot` below proves it equal to the
literal two's-complement reading `Int.land m (Int.lnot b)` of the Python
expression. -/
def clearBits (m b : ℕ) : ℕ := m ^^^ (m &&& b)

/-- State of a `JudgeCallPlotGroup`: the visibility of its yellow and red
scatter plots and its selection mask (`self.selected`). -/
structure JudgeCallPlotGroup where
  yellow : Bool
  red : Bool
  selected : ℕ

deriving DecidableEq, Repr

/-- `JudgeCallPlotGroup.select`: `self.selected = self.selected | selection`,
then both scatters get visibility `self.selected == Selection.ALL`. -/
def JudgeCallPlotGroup.select (g : JudgeCallPlotGroup) (selection : ℕ) :
    JudgeCallPlotGroup :=
  let s := g.selected ||| selection
  let visible := s == Selection.ALL
  { yellow := visible, red := visible, selected := s }

/-- `JudgeCallPlotGroup.deselect`: `self.selected = self.selected & (~selection)`,
then both scatters are unconditionally hidden. -/
def JudgeCallPlotGroup.deselect (g : JudgeCallPlotGroup) (selection : ℕ) :
    JudgeCallPlotGroup :=
  { yellow := false, red := false, selected := clearBits g.selected selection }

/-- `JudgeCallPlotGroup.get_visible`: true iff either scatter is visible. -/
def JudgeCallPlotGroup.get_visible (g : JudgeCallPlotGroup) : Bool :=
  g.yellow || g.red

/-- Apply `select` for each selection bit of a list, left to right. -/
def JudgeCallPlotGroup.selectAll (g : JudgeCallPlotGroup) (l : List ℕ) :
    JudgeCallPlotGroup :=
  l.foldl (fun h b => h.select b) g

/-- The six orders in which the three selection bits can be applied. -/
def selectionOrders : List (List ℕ) :=
  [[Selection.TYPE, Selection.JUDGE, Selection.ATHLETE],
   [Selection.TYPE, Selection.ATHLETE, Selection.JUDGE],
   [Selection.JUDGE, Selection.TYPE, Selection.ATHLETE],
   [Selection.JUDGE, Selection.ATHLETE, Selection.TYPE],
   [Selection.ATHLETE, Selection.TYPE, Selection.JUDGE],
   [Selection.ATHLETE, Selection.JUDGE, Selection.TYPE]]

/-- How an annotation's position is anchored (`set_anncoords`): either
`"offset points"` or an `OffsetFrom` of the previous annotation's bbox patch,
the latter identified by the bib of the athlete owning the previous
annotation. -/
inductive AnnCoords where
  | offsetPoints
  | offsetFrom (bib : ℤ)

deriving DecidableEq, Repr

/-- The state of a matplotlib annotation that `loc_graph.py` reads or writes:
position, text, visibility, bbox face color (identified by the color-cycle
index of the matching athlete line), alignments, text offset and anchor
mode. -/
structure Annotation where
  xy : ℚ × ℚ
  text : String
  visible : Bool
  facecolor : ℕ
  va : String
  ha : String
  xyann : ℚ × ℚ
  anncoords : AnnCoords

deriving DecidableEq, Repr

/-- The annotation as created in `plot`: empty text at `(0, 0)`, `ha="left"`,
hidden, with matplotlib's default face color (index `0` here), vertical
alignment and text offset. -/
def Annotation.init : Annotation :=
  { xy := (0, 0), text := "", visible := false, facecolor := 0,
    va := "baseline", ha := "left", xyann := (0, 0),
    anncoords := AnnCoords.offsetPoints }

/-- One `JudgeCallPlotGroup` together with the keys under which `plot`
registered it (its judge id and call type) and the data of its two scatter
plots.  In the Python code the same group object is reachable through the
athlete's `judge_call_plots` list, `call_type_plots[call_type]` and
`judge_plots[judge_id]`; here the groups live in their athlete's list and the
two indexes are recovered from the `judge`/`callType` fields (each group is
registered under exactly one judge and one call type). -/
structure GroupEntry where
  judge : ℤ
  callType : JudgeCallType
  yellowLabel : String
  redLabel : String
  yellowTimes : List ℤ
  yellowY : List ℚ
  redTimes : List ℤ
  redY : List ℚ
  g : JudgeCallPlotGroup

deriving DecidableEq, Repr

/-- An `AthletePlotGroup` as built by `plot`: the bib it is keyed by in
`athlete_plots`, the label and color-cycle index of its line plot, the line's
data (`(Time, LOCAverage)` samples, times in epoch seconds), the line's
visibility, its annotation, and its judge-call plot groups in build order. -/
structure AthleteEntry where
  bib : ℤ
  label : String
  color : ℕ
  samples : List (ℤ × ℚ)
  lineVisible : Bool
  annotation : Annotation
  groups : List GroupEntry

deriving DecidableEq, Repr

/-- `AthletePlotGroup.select`: show the line and `select(ATHLETE)` every owned
judge-call plot group. -/
def AthleteEntry.select (a : AthleteEntry) : AthleteEntry :=
  { a with lineVisible := true,
           groups := a.groups.map
             (fun ge => { ge with g := ge.g.select Selection.ATHLETE }) }

/-- `AthletePlotGroup.deselect`: hide the line and `deselect(ATHLETE)` every
owned judge-call plot group. -/
def AthleteEntry.deselect (a : AthleteEntry) : AthleteEntry :=
  { a with lineVisible := false,
           groups := a.groups.map
             (fun ge => { ge with g := ge.g.deselect Selection.ATHLETE }) }

/-- `AthletePlotGroup.get_visible`: visibility of the LOC line. -/
def AthleteEntry.get_visible (a : AthleteEntry) : Bool :=
  a.lineVisible

/-- The `LocGraph` state the selection/visibility and hover logic works on:
`athlete_plots` in insertion order (bibs are dict keys, hence distinct), the
legend (one handle per line: `none` is the max-LOC reference line, `some bib`
an athlete line), and the axes bounds read by `move_annotation`
(`ax.get_xlim()` / `ax.get_ylim()`, maintained by matplotlib). -/
structure LocGraph where
  athletes : List AthleteEntry
  legend : List (Option ℤ)
  xlim : ℚ × ℚ
  ylim : ℚ × ℚ

deriving DecidableEq, Repr

/-- `LocGraph.display_athletes`: one pass over `athlete_plots`, selecting the
plots whose bib is in `selected_bibs` (appending them to the legend list that
starts with the max-LOC line) and deselecting the others, then installing the
new legend. -/
def LocGraph.display_athletes (c : LocGraph) (selected_bibs : List ℤ) :
    LocGraph :=
  let r := c.athletes.foldl
    (fun (acc : List (Option ℤ) × List AthleteEntry) plot =>
      if plot.bib ∈ selected_bibs then
        (acc.1 ++ [some plot.bib], acc.2 ++ [plot.select])
      else
        (acc.1, acc.2 ++ [plot.deselect]))
    ([(none : Option ℤ)], ([] : List AthleteEntry))
  { c with athletes := r.2, legend := r.1 }

/-- Whether `call_type_plots` has an entry for `ct`: the dict is populated by
`setdefault` during `plot`, so a key is present iff some group of that call
type was built. -/
def LocGraph.hasCallType (c : LocGraph) (ct : JudgeCallType) : Bool :=
  c.athletes.any (fun a => a.groups.any (fun ge => ge.callType == ct))

/-- `LocGraph.display_judge_call_by_type`: `self.call_type_plots[call_type]`
raises `KeyError` when the index has no entry for `call_type`; otherwise every
group in that entry gets `select(TYPE)` or `deselect(TYPE)` according to
`shw` (the Python parameter `show`).  Iterating the index entry is rendered
here as the per-group conditional, since a group is registered in the index
under exactly its own call type. -/
def LocGraph.display_judge_call_by_type (c : LocGraph) (call_type : JudgeCallType)
    (shw : Bool) : Except String LocGraph :=
  if c.hasCallType call_type then
    .ok { c with athletes := c.athletes.map (fun a =>
      { a with groups := a.groups.map (fun ge =>
        if ge.callType = call_type then
          { ge with g := if shw then ge.g.select Selection.TYPE
                         else ge.g.deselect Selection.TYPE }
        else ge) }) }
  else
    .error "KeyError"

/-- `LocGraph.display_judge_call_by_judges`: iterate every judge present in
`judge_plots` and `select(JUDGE)` its groups when the judge is in
`selected_judges`, else `deselect(JUDGE)` them.  A group is registered under
exactly its own judge, so the pass is rendered as the per-group
conditional. -/
def LocGraph.display_judge_call_by_judges (c : LocGraph)
    (selected_judges : List ℤ) : LocGraph :=
  { c with athletes := c.athletes.map (fun a =>
    { a with groups := a.groups.map (fun ge =>
      if ge.judge ∈ selected_judges then
        { ge with g := ge.g.select Selection.JUDGE }
      else
        { ge with g := ge.g.deselect Selection.JUDGE }) }) }

/-- A chart holding a single athlete (bib 1) with a single LOC judge-call
group from judge 10 — and, in particular, no BENT_KNEE group at all. -/
def chartOneLOC : LocGraph :=
  { athletes := [{ bib := 1, label := "Doe, Jane (1)", color := 0,
                   samples := [(0, 0), (10, 10)], lineVisible := false,
                   annotation := Annotation.init,
                   groups := [{ judge := 10, callType := JudgeCallType.LOC,
                                yellowLabel := "LOC Yellow Card",
                                redLabel := "LOC Red Card",
                                yellowTimes := [5], yellowY := [5],
                                redTimes := [], redY := [],
                                g := ⟨false, false, Selection.NONE⟩ }] }],
    legend := [none], xlim := (0, 10), ylim := (0, 60) }

/-- One of the three chart filter calls, with its arguments. -/
inductive FilterOp where
  | byType (ct : JudgeCallType) (shw : Bool)
  | byJudges (sel : List ℤ)
  | byAthletes (sel : List ℤ)

deriving DecidableEq, Repr

/-- Apply one filter call to the chart. -/
def applyFilter (c : LocGraph) : FilterOp → Except String LocGraph
  | .byType ct shw => c.display_judge_call_by_type ct shw
  | .byJudges sel => .ok (c.display_judge_call_by_judges sel)
  | .byAthletes sel => .ok (c.display_athletes sel)

/-- Apply a sequence of filter calls left to right, aborting on error. -/
def applyFilters (c : LocGraph) : List FilterOp → Except String LocGraph
  | [] => .ok c
  | op :: rest =>
    match applyFilter c op with
    | .ok c2 => applyFilters c2 rest
    | .error e => .error e

/-- The effect of one filter call on one judge-call group of the athlete with
bib `bib` (proof-level restatement of the per-group branches of the three
filters). -/
def gUpd (op : FilterOp) (bib : ℤ) (ge : GroupEntry) : GroupEntry :=
  match op with
  | .byType ct shw =>
      if ge.callType = ct then
        { ge with g := if shw then ge.g.select Selection.TYPE
                       else ge.g.deselect Selection.TYPE }
      else ge
  | .byJudges sel =>
      if ge.judge ∈ sel then { ge with g := ge.g.select Selection.JUDGE }
      else { ge with g := ge.g.deselect Selection.JUDGE }
  | .byAthletes sel =>
      if bib ∈ sel then { ge with g := ge.g.select Selection.ATHLETE }
      else { ge with g := ge.g.deselect Selection.ATHLETE }

/-- The effect of one filter call on one athlete plot group. -/
def aUpd (op : FilterOp) (a : AthleteEntry) : AthleteEntry :=
  match op with
  | .byAthletes sel => if a.bib ∈ sel then a.select else a.deselect
  | _ => { a with groups := a.groups.map (gUpd op a.bib) }

/-- The successful outcome of one filter call: update every group (and, for
`display_athletes`, the line visibilities and the legend). -/
def applyPure (op : FilterOp) (c : LocGraph) : LocGraph :=
  { c with athletes := c.athletes.map (aUpd op),
           legend := match op with
             | .byAthletes sel =>
                 (none : Option ℤ) ::
                   (c.athletes.filter (fun a => decide (a.bib ∈ sel))).map
                     (fun a => some a.bib)
             | _ => c.legend }

/-- All selection masks on the chart are three-bit values. -/
def maskRange (c : LocGraph) : Prop :=
  ∀ a ∈ c.athletes, ∀ ge ∈ a.groups, ge.g.selected < 8

/-- `numpy.interp` for increasing sample points: constant extrapolation
before the first and after the last point, linear interpolation between
consecutive points.  (`np.interp` on an empty sample list raises; the `[]`
case is unreachable and returns `0`.) -/
def np_interp (t : ℚ) : List (ℚ × ℚ) → ℚ
  | [] => 0
  | [p] => p.2
  | p :: q :: rest =>
    if t ≤ p.1 then p.2
    else if t ≤ q.1 then p.2 + (q.2 - p.2) * (t - p.1) / (q.1 - p.1)
    else np_interp t (q :: rest)

/-- The sample pairs of a time series as rational points. -/
def interpPoints (samples : List (ℤ × ℚ)) : List (ℚ × ℚ) :=
  samples.map (fun s => ((s.1 : ℚ), s.2))

/-- `np.interp(t, runner_data["Time"], runner_data["LOCAverage"])` with the
times already converted to epoch seconds. -/
def interpAt (samples : List (ℤ × ℚ)) (t : ℤ) : ℚ :=
  np_interp (t : ℚ) (interpPoints samples)

/-- The inner loop of `plot` over `per_judge_calls`: for each call-type key
interpolate the yellow and red event times onto the athlete's series
(`runner_data`), pick the marker labels for the call type, and build one
`JudgeCallPlotGroup` (both scatters hidden, mask `NONE`); an unrecognized key
raises `RuntimeError("Unknown judge call type while plotting.")`, which
aborts the build (modelled by propagating `Except.error`). -/
def buildJudgeGroups (samples : List (ℤ × ℚ)) (judge_id : ℤ) :
    List (CallKey × List ℤ × List ℤ) → Except String (List GroupEntry)
  | [] => .ok []
  | (call_type, yellow_times, red_times) :: rest =>
    match call_type with
    | .LOC =>
      match buildJudgeGroups samples judge_id rest with
      | .error e => .error e
      | .ok tail =>
          .ok ({ judge := judge_id, callType := JudgeCallType.LOC,
                 yellowLabel := "LOC Yellow Card", redLabel := "LOC Red Card",
                 yellowTimes := yellow_times,
                 yellowY := yellow_times.map (interpAt samples),
                 redTimes := red_times,
                 redY := red_times.map (interpAt samples),
                 g := ⟨false, false, Selection.NONE⟩ } :: tail)
    | .BENT_KNEE =>
      match buildJudgeGroups samples judge_id rest with
      | .error e => .error e
      | .ok tail =>
          .ok ({ judge := judge_id, callType := JudgeCallType.BENT_KNEE,
                 yellowLabel := "Bent Knee Yellow Card",
                 redLabel := "Bent Knee Red Card",
                 yellowTimes := yellow_times,
                 yellowY := yellow_times.map (interpAt samples),
                 redTimes := red_times,
                 redY := red_times.map (interpAt samples),
                 g := ⟨false, false, Selection.NONE⟩ } :: tail)
    | .other => .error "Unknown judge call type while plotting."

/-- The middle loop of `plot` over `per_athlete_judge_calls` (one entry per
judge id), concatenating the groups in build order. -/
def buildGroups (samples : List (ℤ × ℚ)) :
    List (ℤ × List (CallKey × List ℤ × List ℤ)) → Except String (List GroupEntry)
  | [] => .ok []
  | (judge_id, per_judge_calls) :: rest =>
    match buildJudgeGroups samples judge_id per_judge_calls with
    | .error e => .error e
    | .ok head =>
      match buildGroups samples rest with
      | .error e => .error e
      | .ok tail => .ok (head ++ tail)

/-- One iteration of the outer loop of `plot`: the athlete's line plot with
data `runner_data = loc_values[bib_number]`, label `"last, first (bib)"` and
the next color of the cycle, hidden; its empty hidden annotation; and its
judge-call plot groups built from `judge_data[bib_number]`. -/
def buildAthlete (loc_values : ℤ → List (ℤ × ℚ))
    (judge_data : ℤ → List (ℤ × List (CallKey × List ℤ × List ℤ)))
    (index : ℕ) (ath : String × String × ℤ) : Except String AthleteEntry :=
  match buildGroups (loc_values ath.2.2) (judge_data ath.2.2) with
  | .error e => .error e
  | .ok groups =>
      .ok { bib := ath.2.2,
            label := ath.1 ++ ", " ++ ath.2.1 ++ " (" ++ toString ath.2.2 ++ ")",
            color := index, samples := loc_values ath.2.2, lineVisible := false,
            annotation := Annotation.init, groups := groups }

/-- The outer loop of `plot` over `enumerate(athletes)`. -/
def plotAthletes (loc_values : ℤ → List (ℤ × ℚ))
    (judge_data : ℤ → List (ℤ × List (CallKey × List ℤ × List ℤ))) :
    ℕ → List (String × String × ℤ) → Except String (List AthleteEntry)
  | _, [] => .ok []
  | index, ath :: rest =>
    match buildAthlete loc_values judge_data index ath with
    | .error e => .error e
    | .ok a =>
      match plotAthletes loc_values judge_data (index + 1) rest with
      | .error e => .error e
      | .ok tail => .ok (a :: tail)

/-- `LocGraph.plot`: build every athlete's plots and marker groups (all
hidden), then install the initial legend holding only the max-LOC line.
`judges` is a parameter of the Python method but is never read by its body;
the axes bounds are maintained by matplotlib and passed through here. -/
def LocGraph.plot (loc_values : ℤ → List (ℤ × ℚ))
    (judge_data : ℤ → List (ℤ × List (CallKey × List ℤ × List ℤ)))
    (athletes : List (String × String × ℤ)) (_judges : List ℤ)
    (xlim ylim : ℚ × ℚ) : Except String LocGraph :=
  match plotAthletes loc_values judge_data 0 athletes with
  | .error e => .error e
  | .ok plots =>
      .ok { athletes := plots, legend := [(none : Option ℤ)],
            xlim := xlim, ylim := ylim }

/-- What `plot` guarantees about every group it builds: the marker Y-series
are the athlete's interpolated values at the marker times, and the group
starts hidden with mask `NONE`. -/
def groupShape (samples : List (ℤ × ℚ)) (ge : GroupEntry) : Prop :=
  ge.yellowY = ge.yellowTimes.map (interpAt samples) ∧
  ge.redY = ge.redTimes.map (interpAt samples) ∧
  ge.g = ⟨false, false, Selection.NONE⟩

deriving instance DecidableEq for Except

/-- The LOC sample series used in the plot witnesses. -/
def lv0 : ℤ → List (ℤ × ℚ) := fun _ => [(0, 0), (10, 10)]

/-- The athlete list used in the plot witnesses. -/
def ath0 : List (String × String × ℤ) := [("Doe", "Jane", 1)]

/-- Well formed judge-call data: judge 9 issued one yellow LOC call at t=5. -/
def jd0 : ℤ → List (ℤ × List (CallKey × List ℤ × List ℤ)) :=
  fun _ => [(9, [(CallKey.LOC, [5], [])])]

/-- Malformed judge-call data: an unrecognized call-type key. -/
def jdBad : ℤ → List (ℤ × List (CallKey × List ℤ × List ℤ)) :=
  fun _ => [(9, [(CallKey.other, [], [])])]

/-- The group entry `plot` builds from `jd0` for the athlete of `ath0`. -/
def entry6 : GroupEntry :=
  { judge := 9, callType := JudgeCallType.LOC, yellowLabel := "LOC Yellow Card",
    redLabel := "LOC Red Card", yellowTimes := [5], yellowY := [5],
    redTimes := [], redY := [], g := ⟨false, false, Selection.NONE⟩ }

/-- The athlete entry `plot` builds from `lv0`, `jd0`, `ath0`. -/
def athlete6 : AthleteEntry :=
  { bib := 1, label := "Doe, Jane (1)", color := 0, samples := [(0, 0), (10, 10)],
    lineVisible := false, annotation := Annotation.init, groups := [entry6] }

/-- The chart `plot` builds from `lv0`, `jd0`, `ath0`. -/
def c6 : LocGraph :=
  { athletes := [athlete6], legend := [none], xlim := (0, 10), ylim := (0, 60) }

/-- The C9 invariant on one judge-call plot group: the yellow and the red
scatter always have identical visibility, and a visible group's mask is
`ALL`. -/
def groupInv (g : JudgeCallPlotGroup) : Prop :=
  g.yellow = g.red ∧ (g.get_visible = true → g.selected = Selection.ALL)

/-- The C9 invariant over every judge-call plot group of a chart. -/
def chartInv (c : LocGraph) : Prop :=
  ∀ a ∈ c.athletes, ∀ ge ∈ a.groups, groupInv ge.g

/-- A pointer-motion event as seen by `on_hover`: whether `event.inaxes` is
this chart's axes, and the outcome of `scatter.contains(event)` together with
`scatter.get_offsets()[ind["ind"][0]]` for each scatter plot, identified by
its athlete bib, judge id, call type and card color (`false` = yellow,
`true` = red).  Hit-testing happens in the rendering library; here it is an
arbitrary function of the event. -/
structure Event where
  inaxes : Bool
  hit : ℤ → ℤ → JudgeCallType → Bool → Option (ℚ × ℚ)

/-- `if not label in judge_calls: judge_calls.append(label)`. -/
def addCall (judge_calls : List String) (lbl : String) : List String :=
  if lbl ∈ judge_calls then judge_calls else judge_calls ++ [lbl]

/-- One `scatter.contains(event)` check of the hover loop: on a hit, record
the hit position and collect the deduplicated label
`f"{loc_label}: {scatter_label}"`. -/
def scanScatter (e : Event) (bib : ℤ) (lineLabel : String) (ge : GroupEntry)
    (isRed : Bool) (acc : Option (ℚ × ℚ) × List String) :
    Option (ℚ × ℚ) × List String :=
  match e.hit bib ge.judge ge.callType isRed with
  | some p =>
      (some p,
       addCall acc.2 (lineLabel ++ ": " ++ if isRed then ge.redLabel else ge.yellowLabel))
  | none => acc

/-- The two inner loops of `on_hover` for one athlete: every group's yellow
then red scatter is hit-tested, accumulating the last hit position and the
label list. -/
def hoverCollect (e : Event) (bib : ℤ) (lineLabel : String)
    (groups : List GroupEntry) : Option (ℚ × ℚ) × List String :=
  groups.foldl
    (fun acc ge => scanScatter e bib lineLabel ge true (scanScatter e bib lineLabel ge false acc))
    (none, [])

/-- `LocGraph.move_annotation`: place the athlete's annotation at `pos` with
`text`, coloring its box like the athlete's line; anchored below-left of the
previous annotation when one was already placed this pass, else by the
quadrant rule against the axes bounds (offsets ±20, top band of 10% of the
y-range flips the vertical offset). -/
def LocGraph.move_annotation (c : LocGraph) (a : AthleteEntry) (pos : ℚ × ℚ)
    (text : String) ( previous_annotation : Option ℤ) : Annotation :=
  let ann0 := { a.annotation with xy := pos, text := text, facecolor := a.color }
  match previous_annotation with
  | some prev =>
      { ann0 with va := "top", xyann := ((3 : ℚ), (-5 : ℚ)),
                  anncoords := AnnCoords.offsetFrom prev, ha := "left" }
  | none =>
      let x_bounds := c.xlim
      let y_bounds := c.ylim
      let ann1 := { ann0 with va := "bottom", anncoords := AnnCoords.offsetPoints }
      let ann2 := if pos.1 > x_bounds.1 + (x_bounds.2 - x_bounds.1) / 2
        then { ann1 with ha := "right" } else { ann1 with ha := "left" }
      let xo : ℚ := if pos.1 > x_bounds.1 + (x_bounds.2 - x_bounds.1) / 2
        then -20 else 20
      let yo : ℚ := if pos.2 > y_bounds.2 - (y_bounds.2 - y_bounds.1) / 10
        then -20 else 20
      { ann2 with xyann := (xo, yo) }

/-- One iteration of the `on_hover` loop over `athlete_plots.values()`.  The
accumulator carries the processed athletes, the owner of the previously drawn
annotation, and the number of `draw_idle()` calls so far. -/
def hoverStep (c : LocGraph) (e : Event)
    (acc : List AthleteEntry × Option ℤ × ℕ) (plot_group : AthleteEntry) :
    List AthleteEntry × Option ℤ × ℕ :=
  if plot_group.get_visible = false then
    (acc.1 ++ [plot_group], acc.2.1, acc.2.2)
  else
    let col := hoverCollect e plot_group.bib plot_group.label plot_group.groups
    if col.2.isEmpty = false then
      let ann := c.move_annotation plot_group (col.1.getD (0, 0))
        ((String.intercalate "\n" col.2).trim) acc.2.1
      (acc.1 ++ [{ plot_group with annotation := { ann with visible := true } }],
       some plot_group.bib, acc.2.2 + 1)
    else if plot_group.annotation.visible then
      (acc.1 ++ [{ plot_group with annotation :=
          { plot_group.annotation with visible := false } }],
       acc.2.1, acc.2.2 + 1)
    else
      (acc.1 ++ [plot_group], acc.2.1, acc.2.2)

/-- `LocGraph.on_hover`: outside the axes nothing happens; inside, every
visible athlete's scatters are hit-tested and its annotation is moved and
shown (with one `draw_idle()` request) or hidden if it was visible (also one
`draw_idle()` request).  Returns the updated chart and the number of
`draw_idle()` calls issued during the event. -/
def LocGraph.on_hover (c : LocGraph) (e : Event) : LocGraph × ℕ :=
  if e.inaxes then
    let r := c.athletes.foldl (hoverStep c e) ([], none, 0)
    ({ c with athletes := r.1 }, r.2.2)
  else (c, 0)

/-- Forget every athlete's annotation state. -/
def eraseAnnotations (c : LocGraph) : LocGraph :=
  { c with athletes := c.athletes.map (fun a => { a with annotation := Annotation.init }) }

/-- Whether any of the athlete's marker scatters is hit by the event. -/
def athleteHit (e : Event) (a : AthleteEntry) : Bool :=
  a.groups.any (fun ge =>
    (e.hit a.bib ge.judge ge.callType false).isSome ||
    (e.hit a.bib ge.judge ge.callType true).isSome)

/-- One always-hit marker group used in the hover counterexample. -/
def gHit : GroupEntry :=
  { judge := 10, callType := JudgeCallType.LOC, yellowLabel := "LOC Yellow Card",
    redLabel := "LOC Red Card", yellowTimes := [1], yellowY := [1],
    redTimes := [], redY := [], g := ⟨true, true, Selection.ALL⟩ }

/-- A chart with two visible athlete lines, each owning one marker group. -/
def chartTwoVisible : LocGraph :=
  { athletes :=
      [{ bib := 1, label := "Doe, Jane (1)", color := 0, samples := [(0, 0)],
         lineVisible := true, annotation := Annotation.init, groups := [gHit] },
       { bib := 2, label := "Roe, Rick (2)", color := 1, samples := [(0, 0)],
         lineVisible := true, annotation := Annotation.init, groups := [gHit] }],
    legend := [none], xlim := (0, 10), ylim := (0, 60) }

/-- An in-axes event whose hit-test hits every yellow scatter at (1, 1). -/
def hoverEvent : Event :=
  { inaxes := true, hit := fun _ _ _ isRed => if isRed then none else some (1, 1) }

/-- `clearBits` is exactly Python's `m & (~b)` on arbitrary-precision integers
(`~b` being the two's-complement `Int.lnot`). -/
theorem clearBits_eq_land_lnot (m b : ℕ) :
    (clearBits m b : ℤ) = Int.land (m : ℤ) (Int.lnot (b : ℤ)) := by
  have h : Int.lnot (b : ℤ) = Int.negSucc b := rfl
  rw [h]
  show ((m ^^^ (m &&& b) : ℕ) : ℤ) = Int.land (Int.ofNat m) (Int.negSucc b)
  have h2 : Int.land (Int.ofNat m) (Int.negSucc b) = (Nat.ldiff m b : ℤ) := rfl
  rw [h2]
  congr 1
  apply Nat.eq_of_testBit_eq
  intro i
  simp only [Nat.testBit_ldiff, Nat.testBit_xor, Nat.testBit_and]
  cases m.testBit i <;> cases b.testBit i <;> rfl

/-- C1: for every judge-call marker group `g` and every selection bit `b`
(stated for arbitrary `b`, so in particular for `TYPE`, `JUDGE` and
`ATHLETE`), `g.deselect(b)` leaves the group invisible, regardless of which
bits were set in `g`'s mask before the call. -/
theorem deselect_always_hides (g : JudgeCallPlotGroup) (b : ℕ) :
    (g.deselect b).get_visible = false := rfl

/-- C2: starting from any mask state (the reachable masks are exactly the
three-bit values `< 8`), selecting `TYPE`, `JUDGE` and `ATHLETE` once each in
any of the six orders leaves the group visible, and any single subsequent
`deselect` of any one of the three bits makes it invisible again. -/
theorem select_three_then_deselect (g : JudgeCallPlotGroup) (l : List ℕ)
    (hm : g.selected < 8) (hl : l ∈ selectionOrders) :
    (g.selectAll l).get_visible = true ∧
      ∀ b ∈ [Selection.TYPE, Selection.JUDGE, Selection.ATHLETE],
        ((g.selectAll l).deselect b).get_visible = false := by
  obtain ⟨y, r, m⟩ := g
  constructor
  · simp only [selectionOrders, List.mem_cons, List.not_mem_nil, or_false] at hl
    rcases hl with h | h | h | h | h | h <;> subst h <;>
      simp only [JudgeCallPlotGroup.selectAll, List.foldl,
        JudgeCallPlotGroup.select, JudgeCallPlotGroup.get_visible] <;>
      interval_cases m <;> rfl
  · intro b _
    rfl

/-- Witness for C2 at the empty mask and the order `TYPE, JUDGE, ATHLETE`. -/
theorem select_three_then_deselect_witness :
    (JudgeCallPlotGroup.selectAll ⟨false, false, Selection.NONE⟩
        [Selection.TYPE, Selection.JUDGE, Selection.ATHLETE]).get_visible = true ∧
      ∀ b ∈ [Selection.TYPE, Selection.JUDGE, Selection.ATHLETE],
        ((JudgeCallPlotGroup.selectAll ⟨false, false, Selection.NONE⟩
            [Selection.TYPE, Selection.JUDGE, Selection.ATHLETE]).deselect b).get_visible
          = false :=
  select_three_then_deselect ⟨false, false, Selection.NONE⟩ _
    (by decide) (by simp [selectionOrders])

/-- Closed form of the `display_athletes` pass: the legend accumulator collects
the selected bibs in registration order and every athlete plot is selected or
deselected according to membership of its bib. -/
theorem display_athletes_foldl (sel : List ℤ) (l : List AthleteEntry)
    (acc1 : List (Option ℤ)) (acc2 : List AthleteEntry) :
    l.foldl
      (fun (acc : List (Option ℤ) × List AthleteEntry) plot =>
        if plot.bib ∈ sel then
          (acc.1 ++ [some plot.bib], acc.2 ++ [plot.select])
        else
          (acc.1, acc.2 ++ [plot.deselect]))
      (acc1, acc2) =
      (acc1 ++ (l.filter (fun a => decide (a.bib ∈ sel))).map (fun a => some a.bib),
       acc2 ++ l.map (fun a => if a.bib ∈ sel then a.select else a.deselect)) := by
  induction l generalizing acc1 acc2 with
  | nil => simp
  | cons a l ih =>
      by_cases h : a.bib ∈ sel <;>
        simp [List.foldl_cons, h, ih, List.append_assoc]

/-- C8: `display_athletes(selectedBibs)` selects exactly the athlete plot
groups whose bib is in `selectedBibs` and deselects all others, and rebuilds
the legend as the max-LOC line followed by the selected athletes' lines in
registration order. -/
theorem display_athletes_selects_and_rebuilds_legend (c : LocGraph)
    (sel : List ℤ) :
    (c.display_athletes sel).athletes =
        c.athletes.map (fun a => if a.bib ∈ sel then a.select else a.deselect) ∧
      (c.display_athletes sel).legend =
        (none : Option ℤ) ::
          (c.athletes.filter (fun a => decide (a.bib ∈ sel))).map
            (fun a => some a.bib) := by
  unfold LocGraph.display_athletes
  rw [display_athletes_foldl]
  exact ⟨rfl, rfl⟩

/-- Counterexample to C4 as stated: on a chart with no BENT_KNEE marker
groups, `display_judge_call_by_type(BENT_KNEE, True)` raises `KeyError`
(`self.call_type_plots[call_type]` has no such key) instead of being a no-op. -/
theorem display_by_type_missing_key_raises :
    chartOneLOC.display_judge_call_by_type JudgeCallType.BENT_KNEE true =
      Except.error "KeyError" := by
  rfl

/-- C4 (amended): `display_judge_call_by_type` succeeds exactly when some
marker group of the requested call type exists, and raises `KeyError`
otherwise; `display_judge_call_by_judges` and `display_athletes` are total,
and ids absent from the chart's indexes contribute no visibility change. -/
theorem filters_totality_amended :
    (∀ (c : LocGraph) (ct : JudgeCallType) (shw : Bool),
        (∃ c2, c.display_judge_call_by_type ct shw = .ok c2) ↔
          ∃ a ∈ c.athletes, ∃ ge ∈ a.groups, ge.callType = ct) ∧
    (∀ (c : LocGraph) (ct : JudgeCallType) (shw : Bool),
        c.hasCallType ct = false →
          c.display_judge_call_by_type ct shw = .error "KeyError") ∧
    (∀ (c : LocGraph) (sel extra : List ℤ),
        (∀ j ∈ extra, ∀ a ∈ c.athletes, ∀ ge ∈ a.groups, ge.judge ≠ j) →
          c.display_judge_call_by_judges (sel ++ extra) =
            c.display_judge_call_by_judges sel) ∧
    (∀ (c : LocGraph) (sel extra : List ℤ),
        (∀ b ∈ extra, ∀ a ∈ c.athletes, a.bib ≠ b) →
          c.display_athletes (sel ++ extra) = c.display_athletes sel) := by
  refine ⟨?_, ?_, ?_, ?_⟩
  · intro c ct shw
    by_cases h : c.hasCallType ct = true
    · have h2 := h
      simp only [LocGraph.hasCallType, List.any_eq_true, beq_iff_eq] at h2
      simp only [LocGraph.display_judge_call_by_type, h, if_true]
      exact ⟨fun _ => h2, fun _ => ⟨_, rfl⟩⟩
    · have h2 := h
      simp only [LocGraph.hasCallType, List.any_eq_true, beq_iff_eq] at h2
      simp only [LocGraph.display_judge_call_by_type, h, if_false]
      constructor
      · rintro ⟨c2, hc2⟩
        exact absurd hc2 (by simp)
      · intro hx
        exact absurd hx h2
  · intro c ct shw h
    simp only [LocGraph.display_judge_call_by_type, h]
    simp
  · intro c sel extra h
    have h2 : c.athletes.map (fun (a : AthleteEntry) =>
        { a with groups := a.groups.map (fun (ge : GroupEntry) =>
          if ge.judge ∈ sel ++ extra then
            { ge with g := ge.g.select Selection.JUDGE }
          else
            { ge with g := ge.g.deselect Selection.JUDGE }) }) =
          c.athletes.map (fun (a : AthleteEntry) =>
        { a with groups := a.groups.map (fun (ge : GroupEntry) =>
          if ge.judge ∈ sel then
            { ge with g := ge.g.select Selection.JUDGE }
          else
            { ge with g := ge.g.deselect Selection.JUDGE }) }) := by
      apply List.map_congr_left
      intro a ha
      have h3 : a.groups.map (fun (ge : GroupEntry) =>
          if ge.judge ∈ sel ++ extra then
            { ge with g := ge.g.select Selection.JUDGE }
          else
            { ge with g := ge.g.deselect Selection.JUDGE }) =
            a.groups.map (fun (ge : GroupEntry) =>
          if ge.judge ∈ sel then
            { ge with g := ge.g.select Selection.JUDGE }
          else
            { ge with g := ge.g.deselect Selection.JUDGE }) := by
        apply List.map_congr_left
        intro ge hge
        have hj : (ge.judge ∈ sel ++ extra) ↔ ge.judge ∈ sel := by
          simp only [List.mem_append, or_iff_left_iff_imp]
          intro hx
          exact absurd rfl (h ge.judge hx a ha ge hge)
        by_cases hs : ge.judge ∈ sel
        · rw [if_pos (hj.mpr hs), if_pos hs]
        · rw [if_neg (fun hx => hs (hj.mp hx)), if_neg hs]
      rw [h3]
    simp only [LocGraph.display_judge_call_by_judges]
    rw [h2]
  · intro c sel extra h
    have hmem : ∀ a ∈ c.athletes, (a.bib ∈ sel ++ extra) ↔ a.bib ∈ sel := by
      intro a ha
      simp only [List.mem_append, or_iff_left_iff_imp]
      intro hx
      exact absurd rfl (h a.bib hx a ha)
    have h1 : c.athletes.filter (fun a => decide (a.bib ∈ sel ++ extra)) =
        c.athletes.filter (fun a => decide (a.bib ∈ sel)) := by
      apply List.filter_congr
      intro a ha
      simp only [decide_eq_decide]
      exact hmem a ha
    have h2 : c.athletes.map (fun a =>
        if a.bib ∈ sel ++ extra then a.select else a.deselect) =
          c.athletes.map (fun a => if a.bib ∈ sel then a.select else a.deselect) := by
      apply List.map_congr_left
      intro a ha
      by_cases hs : a.bib ∈ sel
      · rw [if_pos ((hmem a ha).mpr hs), if_pos hs]
      · rw [if_neg (fun hx => hs ((hmem a ha).mp hx)), if_neg hs]
    unfold LocGraph.display_athletes
    rw [display_athletes_foldl, display_athletes_foldl, h1, h2]

/-- Witness for the amended C4 on `chartOneLOC`: a present call type yields a
success, the absent BENT_KNEE type yields `KeyError`, and unknown judge id 99
and unknown bib 99 contribute no change. -/
theorem filters_totality_amended_witness :
    ((∃ c2, chartOneLOC.display_judge_call_by_type JudgeCallType.LOC true = .ok c2) ↔
      ∃ a ∈ chartOneLOC.athletes, ∃ ge ∈ a.groups, ge.callType = JudgeCallType.LOC) ∧
    (chartOneLOC.display_judge_call_by_type JudgeCallType.BENT_KNEE true =
      .error "KeyError") ∧
    (chartOneLOC.display_judge_call_by_judges ([10] ++ [99]) =
      chartOneLOC.display_judge_call_by_judges [10]) ∧
    (chartOneLOC.display_athletes ([1] ++ [99]) = chartOneLOC.display_athletes [1]) :=
  ⟨filters_totality_amended.1 chartOneLOC JudgeCallType.LOC true,
   filters_totality_amended.2.1 chartOneLOC JudgeCallType.BENT_KNEE true (by decide),
   filters_totality_amended.2.2.1 chartOneLOC [10] [99] (by decide),
   filters_totality_amended.2.2.2 chartOneLOC [1] [99] (by decide)⟩

theorem applyFilter_byJudges (c : LocGraph) (sel : List ℤ) :
    applyFilter c (.byJudges sel) = .ok (applyPure (.byJudges sel) c) := rfl

theorem applyFilter_byAthletes (c : LocGraph) (sel : List ℤ) :
    applyFilter c (.byAthletes sel) = .ok (applyPure (.byAthletes sel) c) := by
  simp only [applyFilter, LocGraph.display_athletes, display_athletes_foldl,
    List.nil_append, applyPure, aUpd]
  rfl

theorem applyFilter_byType (c : LocGraph) (ct : JudgeCallType) (shw : Bool)
    (h : c.hasCallType ct = true) :
    applyFilter c (.byType ct shw) = .ok (applyPure (.byType ct shw) c) := by
  simp only [applyFilter, LocGraph.display_judge_call_by_type, h, if_true]
  rfl

/-- `gUpd` never changes the identifying fields of a group entry. -/
theorem gUpd_preserves_keys (op : FilterOp) (bib : ℤ) (ge : GroupEntry) :
    (gUpd op bib ge).judge = ge.judge ∧ (gUpd op bib ge).callType = ge.callType := by
  cases op <;> simp only [gUpd] <;> split <;> exact ⟨rfl, rfl⟩

/-- The bit operations used by the filters keep masks three-bit. -/
theorem mask_ops_range (m : ℕ) (hm : m < 8) :
    (m ||| Selection.TYPE) < 8 ∧ (m ||| Selection.JUDGE) < 8 ∧
      (m ||| Selection.ATHLETE) < 8 ∧ clearBits m Selection.TYPE < 8 ∧
      clearBits m Selection.JUDGE < 8 ∧ clearBits m Selection.ATHLETE < 8 := by
  interval_cases m <;> decide

/-- Per-group commutation of a `TYPE` update with a `JUDGE` update. -/
theorem gUpd_comm_type_judges (ct : JudgeCallType) (shw : Bool) (sel : List ℤ)
    (bib : ℤ) (ge : GroupEntry) (hm : ge.g.selected < 8) :
    gUpd (.byJudges sel) bib (gUpd (.byType ct shw) bib ge) =
      gUpd (.byType ct shw) bib (gUpd (.byJudges sel) bib ge) := by
  obtain ⟨j, ct0, yl, rl, yt, yy, rt, ry, y, r, m⟩ := ge
  have hm2 : m < 8 := hm
  clear hm
  by_cases hc : ct0 = ct <;> by_cases hj : j ∈ sel <;> cases shw <;>
    simp [gUpd, hc, hj, JudgeCallPlotGroup.select, JudgeCallPlotGroup.deselect] <;>
    (interval_cases m <;> decide)

/-- Per-group commutation of a `TYPE` update with an `ATHLETE` update. -/
theorem gUpd_comm_type_athletes (ct : JudgeCallType) (shw : Bool) (sel : List ℤ)
    (bib : ℤ) (ge : GroupEntry) (hm : ge.g.selected < 8) :
    gUpd (.byAthletes sel) bib (gUpd (.byType ct shw) bib ge) =
      gUpd (.byType ct shw) bib (gUpd (.byAthletes sel) bib ge) := by
  obtain ⟨j, ct0, yl, rl, yt, yy, rt, ry, y, r, m⟩ := ge
  have hm2 : m < 8 := hm
  clear hm
  by_cases hc : ct0 = ct <;> by_cases hb : bib ∈ sel <;> cases shw <;>
    simp [gUpd, hc, hb, JudgeCallPlotGroup.select, JudgeCallPlotGroup.deselect] <;>
    (interval_cases m <;> decide)

/-- Per-group commutation of a `JUDGE` update with an `ATHLETE` update. -/
theorem gUpd_comm_judges_athletes (sel sel2 : List ℤ)
    (bib : ℤ) (ge : GroupEntry) (hm : ge.g.selected < 8) :
    gUpd (.byAthletes sel2) bib (gUpd (.byJudges sel) bib ge) =
      gUpd (.byJudges sel) bib (gUpd (.byAthletes sel2) bib ge) := by
  obtain ⟨j, ct0, yl, rl, yt, yy, rt, ry, y, r, m⟩ := ge
  have hm2 : m < 8 := hm
  clear hm
  by_cases hj : j ∈ sel <;> by_cases hb : bib ∈ sel2 <;>
    simp [gUpd, hj, hb, JudgeCallPlotGroup.select, JudgeCallPlotGroup.deselect] <;>
    (interval_cases m <;> decide)

/-- The `ATHLETE` branch of `aUpd` in the same shape as the other two. -/
theorem aUpd_byAthletes_eq (sel : List ℤ) (a : AthleteEntry) :
    aUpd (.byAthletes sel) a =
      { a with lineVisible := decide (a.bib ∈ sel),
               groups := a.groups.map (gUpd (.byAthletes sel) a.bib) } := by
  by_cases hb : a.bib ∈ sel <;>
    simp [aUpd, AthleteEntry.select, AthleteEntry.deselect, gUpd, hb]

/-- Every filter updates an athlete's group list pointwise through `gUpd`. -/
theorem aUpd_groups_eq (op : FilterOp) (a : AthleteEntry) :
    (aUpd op a).groups = a.groups.map (gUpd op a.bib) := by
  cases op with
  | byAthletes sel => rw [aUpd_byAthletes_eq]
  | byType ct shw => rfl
  | byJudges sel => rfl

/-- `aUpd` preserves the bib of an athlete plot group. -/
theorem aUpd_bib (op : FilterOp) (a : AthleteEntry) : (aUpd op a).bib = a.bib := by
  cases op with
  | byAthletes sel =>
      simp only [aUpd]
      split <;> rfl
  | byType ct shw => rfl
  | byJudges sel => rfl

/-- Athlete-level commutation of a `TYPE` update with a `JUDGE` update. -/
theorem aUpd_comm_type_judges (ct : JudgeCallType) (shw : Bool) (sel : List ℤ)
    (a : AthleteEntry) (hm : ∀ ge ∈ a.groups, ge.g.selected < 8) :
    aUpd (.byJudges sel) (aUpd (.byType ct shw) a) =
      aUpd (.byType ct shw) (aUpd (.byJudges sel) a) := by
  simp only [aUpd, List.map_map]
  have h : a.groups.map
      ((gUpd (.byJudges sel) a.bib) ∘ (gUpd (.byType ct shw) a.bib)) =
        a.groups.map
      ((gUpd (.byType ct shw) a.bib) ∘ (gUpd (.byJudges sel) a.bib)) := by
    apply List.map_congr_left
    intro ge hge
    exact gUpd_comm_type_judges ct shw sel a.bib ge (hm ge hge)
  rw [h]

/-- Athlete-level commutation of a `TYPE` update with an `ATHLETE` update. -/
theorem aUpd_comm_type_athletes (ct : JudgeCallType) (shw : Bool) (sel2 : List ℤ)
    (a : AthleteEntry) (hm : ∀ ge ∈ a.groups, ge.g.selected < 8) :
    aUpd (.byAthletes sel2) (aUpd (.byType ct shw) a) =
      aUpd (.byType ct shw) (aUpd (.byAthletes sel2) a) := by
  rw [aUpd_byAthletes_eq, aUpd_byAthletes_eq]
  simp only [aUpd, List.map_map]
  have h : a.groups.map
      ((gUpd (.byAthletes sel2) a.bib) ∘ (gUpd (.byType ct shw) a.bib)) =
        a.groups.map
      ((gUpd (.byType ct shw) a.bib) ∘ (gUpd (.byAthletes sel2) a.bib)) := by
    apply List.map_congr_left
    intro ge hge
    exact gUpd_comm_type_athletes ct shw sel2 a.bib ge (hm ge hge)
  rw [h]

/-- Athlete-level commutation of a `JUDGE` update with an `ATHLETE` update. -/
theorem aUpd_comm_judges_athletes (sel sel2 : List ℤ)
    (a : AthleteEntry) (hm : ∀ ge ∈ a.groups, ge.g.selected < 8) :
    aUpd (.byAthletes sel2) (aUpd (.byJudges sel) a) =
      aUpd (.byJudges sel) (aUpd (.byAthletes sel2) a) := by
  rw [aUpd_byAthletes_eq, aUpd_byAthletes_eq]
  simp only [aUpd, List.map_map]
  have h : a.groups.map
      ((gUpd (.byAthletes sel2) a.bib) ∘ (gUpd (.byJudges sel) a.bib)) =
        a.groups.map
      ((gUpd (.byJudges sel) a.bib) ∘ (gUpd (.byAthletes sel2) a.bib)) := by
    apply List.map_congr_left
    intro ge hge
    exact gUpd_comm_judges_athletes sel sel2 a.bib ge (hm ge hge)
  rw [h]

/-- Filtering on bibs commutes with a bib-preserving update of the athletes. -/
theorem legend_filter_map (f : AthleteEntry → AthleteEntry)
    (hf : ∀ a, (f a).bib = a.bib) (l : List AthleteEntry) (sel : List ℤ) :
    ((l.map f).filter (fun a => decide (a.bib ∈ sel))).map (fun a => some a.bib) =
      (l.filter (fun a => decide (a.bib ∈ sel))).map (fun a => some a.bib) := by
  induction l with
  | nil => rfl
  | cons a l ih =>
      simp only [List.map_cons, List.filter_cons, hf]
      by_cases hb : a.bib ∈ sel <;> simp [hb, ih, hf]

/-- Chart-level commutation of `display_judge_call_by_type` with
`display_judge_call_by_judges` (successful outcomes). -/
theorem applyPure_comm_type_judges (ct : JudgeCallType) (shw : Bool)
    (sel : List ℤ) (c : LocGraph) (hm : maskRange c) :
    applyPure (.byJudges sel) (applyPure (.byType ct shw) c) =
      applyPure (.byType ct shw) (applyPure (.byJudges sel) c) := by
  simp only [applyPure, List.map_map]
  have h : c.athletes.map ((aUpd (.byJudges sel)) ∘ (aUpd (.byType ct shw))) =
      c.athletes.map ((aUpd (.byType ct shw)) ∘ (aUpd (.byJudges sel))) := by
    apply List.map_congr_left
    intro a ha
    exact aUpd_comm_type_judges ct shw sel a (hm a ha)
  rw [h]

/-- Chart-level commutation of `display_judge_call_by_type` with
`display_athletes` (successful outcomes). -/
theorem applyPure_comm_type_athletes (ct : JudgeCallType) (shw : Bool)
    (sel2 : List ℤ) (c : LocGraph) (hm : maskRange c) :
    applyPure (.byAthletes sel2) (applyPure (.byType ct shw) c) =
      applyPure (.byType ct shw) (applyPure (.byAthletes sel2) c) := by
  simp only [applyPure, List.map_map]
  have h : c.athletes.map ((aUpd (.byAthletes sel2)) ∘ (aUpd (.byType ct shw))) =
      c.athletes.map ((aUpd (.byType ct shw)) ∘ (aUpd (.byAthletes sel2))) := by
    apply List.map_congr_left
    intro a ha
    exact aUpd_comm_type_athletes ct shw sel2 a (hm a ha)
  rw [h, legend_filter_map (aUpd (.byType ct shw)) (aUpd_bib _) c.athletes sel2]

/-- Chart-level commutation of `display_judge_call_by_judges` with
`display_athletes`. -/
theorem applyPure_comm_judges_athletes (sel sel2 : List ℤ) (c : LocGraph)
    (hm : maskRange c) :
    applyPure (.byAthletes sel2) (applyPure (.byJudges sel) c) =
      applyPure (.byJudges sel) (applyPure (.byAthletes sel2) c) := by
  simp only [applyPure, List.map_map]
  have h : c.athletes.map ((aUpd (.byAthletes sel2)) ∘ (aUpd (.byJudges sel))) =
      c.athletes.map ((aUpd (.byJudges sel)) ∘ (aUpd (.byAthletes sel2))) := by
    apply List.map_congr_left
    intro a ha
    exact aUpd_comm_judges_athletes sel sel2 a (hm a ha)
  rw [h, legend_filter_map (aUpd (.byJudges sel)) (aUpd_bib _) c.athletes sel2]

/-- `gUpd` keeps selection masks three-bit. -/
theorem gUpd_selected_range (op : FilterOp) (bib : ℤ) (ge : GroupEntry)
    (hm : ge.g.selected < 8) : (gUpd op bib ge).g.selected < 8 := by
  have h := mask_ops_range ge.g.selected hm
  cases op with
  | byType ct shw =>
      simp only [gUpd]
      split
      · cases shw <;>
          simp [JudgeCallPlotGroup.select, JudgeCallPlotGroup.deselect] <;>
          tauto
      · exact hm
  | byJudges sel =>
      simp only [gUpd]
      split <;>
        simp [JudgeCallPlotGroup.select, JudgeCallPlotGroup.deselect] <;>
        tauto
  | byAthletes sel =>
      simp only [gUpd]
      split <;>
        simp [JudgeCallPlotGroup.select, JudgeCallPlotGroup.deselect] <;>
        tauto

/-- The pure filter outcomes keep all masks three-bit. -/
theorem maskRange_applyPure (op : FilterOp) (c : LocGraph) (hm : maskRange c) :
    maskRange (applyPure op c) := by
  intro a ha ge hge
  simp only [applyPure, List.mem_map] at ha
  obtain ⟨a0, ha0, rfl⟩ := ha
  rw [aUpd_groups_eq] at hge
  simp only [List.mem_map] at hge
  obtain ⟨ge0, hge0, rfl⟩ := hge
  exact gUpd_selected_range op a0.bib ge0 (hm a0 ha0 ge0 hge0)

/-- Pointwise-equal predicates give equal `List.any`. -/
theorem list_any_congr {α : Type} (p q : α → Bool) (l : List α)
    (h : ∀ a ∈ l, p a = q a) : l.any p = l.any q := by
  induction l with
  | nil => rfl
  | cons a l ih =>
      simp only [List.any_cons, h a (by simp)]
      rw [ih (fun b hb => h b (by simp [hb]))]

/-- The pure filter outcomes preserve which call types are present. -/
theorem hasCallType_applyPure (op : FilterOp) (c : LocGraph) (ct : JudgeCallType) :
    (applyPure op c).hasCallType ct = c.hasCallType ct := by
  simp only [LocGraph.hasCallType, applyPure, List.any_map]
  apply list_any_congr
  intro a _
  rw [Function.comp_apply, aUpd_groups_eq, List.any_map]
  apply list_any_congr
  intro ge _
  rw [Function.comp_apply, (gUpd_preserves_keys op a.bib ge).2]

/-- Evaluate one successful step of `applyFilters`. -/
theorem applyFilters_cons_ok (c c2 : LocGraph) (op : FilterOp) (rest : List FilterOp)
    (h : applyFilter c op = .ok c2) :
    applyFilters c (op :: rest) = applyFilters c2 rest := by
  simp [applyFilters, h]

/-- C3: applying `display_judge_call_by_type`, `display_judge_call_by_judges`
and `display_athletes` once each, with fixed arguments, in any of the six
permutations yields the same final chart — in particular the same final
selection mask and visibility for every judge-call marker group.  The masks
are assumed three-bit (every reachable mask is) and the call-type index is
assumed to have an entry for the filtered call type (otherwise every order
raises `KeyError` before or after partially filtering). -/
theorem filters_commute (c : LocGraph) (ct : JudgeCallType) (shw : Bool)
    (judges bibs : List ℤ) (l : List FilterOp)
    (hm : maskRange c) (hct : c.hasCallType ct = true)
    (hl : l ∈ [[FilterOp.byType ct shw, FilterOp.byJudges judges, FilterOp.byAthletes bibs],
               [FilterOp.byType ct shw, FilterOp.byAthletes bibs, FilterOp.byJudges judges],
               [FilterOp.byJudges judges, FilterOp.byType ct shw, FilterOp.byAthletes bibs],
               [FilterOp.byJudges judges, FilterOp.byAthletes bibs, FilterOp.byType ct shw],
               [FilterOp.byAthletes bibs, FilterOp.byType ct shw, FilterOp.byJudges judges],
               [FilterOp.byAthletes bibs, FilterOp.byJudges judges, FilterOp.byType ct shw]]) :
    applyFilters c l =
      applyFilters c
        [FilterOp.byType ct shw, FilterOp.byJudges judges, FilterOp.byAthletes bibs] := by
  have hmT := maskRange_applyPure (.byType ct shw) c hm
  have hmJ := maskRange_applyPure (.byJudges judges) c hm
  have hmA := maskRange_applyPure (.byAthletes bibs) c hm
  have hctJ : (applyPure (.byJudges judges) c).hasCallType ct = true := by
    rw [hasCallType_applyPure]; exact hct
  have hctA : (applyPure (.byAthletes bibs) c).hasCallType ct = true := by
    rw [hasCallType_applyPure]; exact hct
  have hctAJ : (applyPure (.byAthletes bibs) (applyPure (.byJudges judges) c)).hasCallType ct
      = true := by
    rw [hasCallType_applyPure, hasCallType_applyPure]; exact hct
  have hctJA : (applyPure (.byJudges judges) (applyPure (.byAthletes bibs) c)).hasCallType ct
      = true := by
    rw [hasCallType_applyPure, hasCallType_applyPure]; exact hct
  have hR : applyFilters c
      [FilterOp.byType ct shw, FilterOp.byJudges judges, FilterOp.byAthletes bibs] =
      .ok (applyPure (.byAthletes bibs)
            (applyPure (.byJudges judges) (applyPure (.byType ct shw) c))) := by
    rw [applyFilters_cons_ok _ _ _ _ (applyFilter_byType c ct shw hct),
        applyFilters_cons_ok _ _ _ _ (applyFilter_byJudges _ judges),
        applyFilters_cons_ok _ _ _ _ (applyFilter_byAthletes _ bibs)]
    rfl
  simp only [List.mem_cons, List.not_mem_nil, or_false] at hl
  rcases hl with h | h | h | h | h | h <;> subst h
  · rfl
  · rw [hR, applyFilters_cons_ok _ _ _ _ (applyFilter_byType c ct shw hct),
        applyFilters_cons_ok _ _ _ _ (applyFilter_byAthletes _ bibs),
        applyFilters_cons_ok _ _ _ _ (applyFilter_byJudges _ judges)]
    simp only [applyFilters]
    rw [applyPure_comm_judges_athletes judges bibs (applyPure (.byType ct shw) c) hmT]
  · rw [hR, applyFilters_cons_ok _ _ _ _ (applyFilter_byJudges c judges),
        applyFilters_cons_ok _ _ _ _ (applyFilter_byType _ ct shw hctJ),
        applyFilters_cons_ok _ _ _ _ (applyFilter_byAthletes _ bibs)]
    simp only [applyFilters]
    rw [← applyPure_comm_type_judges ct shw judges c hm]
  · rw [hR, applyFilters_cons_ok _ _ _ _ (applyFilter_byJudges c judges),
        applyFilters_cons_ok _ _ _ _ (applyFilter_byAthletes _ bibs),
        applyFilters_cons_ok _ _ _ _ (applyFilter_byType _ ct shw hctAJ)]
    simp only [applyFilters]
    rw [← applyPure_comm_type_athletes ct shw bibs (applyPure (.byJudges judges) c) hmJ,
        applyPure_comm_type_judges ct shw judges c hm]
  · rw [hR, applyFilters_cons_ok _ _ _ _ (applyFilter_byAthletes c bibs),
        applyFilters_cons_ok _ _ _ _ (applyFilter_byType _ ct shw hctA),
        applyFilters_cons_ok _ _ _ _ (applyFilter_byJudges _ judges)]
    simp only [applyFilters]
    rw [applyPure_comm_type_judges ct shw judges (applyPure (.byAthletes bibs) c) hmA,
        ← applyPure_comm_judges_athletes judges bibs c hm,
        ← applyPure_comm_type_athletes ct shw bibs (applyPure (.byJudges judges) c) hmJ,
        ← applyPure_comm_type_judges ct shw judges c hm]
  · rw [hR, applyFilters_cons_ok _ _ _ _ (applyFilter_byAthletes c bibs),
        applyFilters_cons_ok _ _ _ _ (applyFilter_byJudges _ judges),
        applyFilters_cons_ok _ _ _ _ (applyFilter_byType _ ct shw hctJA)]
    simp only [applyFilters]
    rw [← applyPure_comm_judges_athletes judges bibs c hm,
        ← applyPure_comm_type_athletes ct shw bibs (applyPure (.byJudges judges) c) hmJ,
        ← applyPure_comm_type_judges ct shw judges c hm]

/-- Witness for C3 on `chartOneLOC`: the reversed order gives the same chart
as the canonical order. -/
theorem filters_commute_witness :
    applyFilters chartOneLOC
        [FilterOp.byAthletes [1], FilterOp.byJudges [10],
         FilterOp.byType JudgeCallType.LOC true] =
      applyFilters chartOneLOC
        [FilterOp.byType JudgeCallType.LOC true, FilterOp.byJudges [10],
         FilterOp.byAthletes [1]] :=
  filters_commute chartOneLOC JudgeCallType.LOC true [10] [1] _
    (show ∀ a ∈ chartOneLOC.athletes, ∀ ge ∈ a.groups, ge.g.selected < 8 by decide)
    (by decide) (by decide)

theorem buildJudgeGroups_ok_iff (samples : List (ℤ × ℚ)) (j : ℤ)
    (calls : List (CallKey × List ℤ × List ℤ)) :
    (∃ gs, buildJudgeGroups samples j calls = .ok gs) ↔
      ∀ q ∈ calls, q.1 ≠ CallKey.other := by
  induction calls with
  | nil => simp [buildJudgeGroups]
  | cons q rest ih =>
      obtain ⟨ct, yt, rt⟩ := q
      cases ct with
      | LOC =>
          simp only [buildJudgeGroups, List.mem_cons, forall_eq_or_imp]
          cases h2 : buildJudgeGroups samples j rest with
          | ok tail =>
              have h3 : ∀ q ∈ rest, q.1 ≠ CallKey.other := ih.mp ⟨tail, h2⟩
              simp
              exact fun a yt2 rt2 hmem => h3 (a, yt2, rt2) hmem
          | error e =>
              constructor
              · rintro ⟨gs, hgs⟩
                exact absurd hgs (by simp)
              · rintro ⟨hq, hrest⟩
                obtain ⟨gs, hgs⟩ := ih.mpr hrest
                rw [h2] at hgs
                exact Except.noConfusion hgs
      | BENT_KNEE =>
          simp only [buildJudgeGroups, List.mem_cons, forall_eq_or_imp]
          cases h2 : buildJudgeGroups samples j rest with
          | ok tail =>
              have h3 : ∀ q ∈ rest, q.1 ≠ CallKey.other := ih.mp ⟨tail, h2⟩
              simp
              exact fun a yt2 rt2 hmem => h3 (a, yt2, rt2) hmem
          | error e =>
              constructor
              · rintro ⟨gs, hgs⟩
                exact absurd hgs (by simp)
              · rintro ⟨hq, hrest⟩
                obtain ⟨gs, hgs⟩ := ih.mpr hrest
                rw [h2] at hgs
                exact Except.noConfusion hgs
      | other =>
          simp [buildJudgeGroups]

theorem buildGroups_ok_iff (samples : List (ℤ × ℚ))
    (pjc : List (ℤ × List (CallKey × List ℤ × List ℤ))) :
    (∃ gs, buildGroups samples pjc = .ok gs) ↔
      ∀ p ∈ pjc, ∀ q ∈ p.2, q.1 ≠ CallKey.other := by
  induction pjc with
  | nil => simp [buildGroups]
  | cons p rest ih =>
      obtain ⟨j, calls⟩ := p
      simp only [buildGroups, List.mem_cons, forall_eq_or_imp]
      cases h1 : buildJudgeGroups samples j calls with
      | ok head =>
          have h3 : ∀ q ∈ calls, q.1 ≠ CallKey.other :=
            (buildJudgeGroups_ok_iff samples j calls).mp ⟨head, h1⟩
          cases h2 : buildGroups samples rest with
          | ok tail =>
              have h4 := ih.mp ⟨tail, h2⟩
              simp
              constructor
              · exact fun a yt2 rt2 hmem => h3 (a, yt2, rt2) hmem
              · exact fun j2 calls2 hmem a yt2 rt2 hq =>
                  h4 (j2, calls2) hmem (a, yt2, rt2) hq
          | error e =>
              constructor
              · rintro ⟨gs, hgs⟩
                exact absurd hgs (by simp)
              · rintro ⟨hq, hrest⟩
                obtain ⟨gs, hgs⟩ := ih.mpr hrest
                rw [h2] at hgs
                exact Except.noConfusion hgs
      | error e =>
          constructor
          · rintro ⟨gs, hgs⟩
            exact absurd hgs (by simp)
          · rintro ⟨hq, hrest⟩
            obtain ⟨gs, hgs⟩ := (buildJudgeGroups_ok_iff samples j calls).mpr hq
            rw [h1] at hgs
            exact Except.noConfusion hgs

theorem buildAthlete_ok_iff (lv : ℤ → List (ℤ × ℚ))
    (jd : ℤ → List (ℤ × List (CallKey × List ℤ × List ℤ)))
    (index : ℕ) (ath : String × String × ℤ) :
    (∃ a, buildAthlete lv jd index ath = .ok a) ↔
      ∀ p ∈ jd ath.2.2, ∀ q ∈ p.2, q.1 ≠ CallKey.other := by
  rw [← buildGroups_ok_iff (lv ath.2.2) (jd ath.2.2)]
  unfold buildAthlete
  cases h : buildGroups (lv ath.2.2) (jd ath.2.2) with
  | ok gs => simp
  | error e => simp

theorem plotAthletes_ok_iff (lv : ℤ → List (ℤ × ℚ))
    (jd : ℤ → List (ℤ × List (CallKey × List ℤ × List ℤ)))
    (index : ℕ) (athletes : List (String × String × ℤ)) :
    (∃ l, plotAthletes lv jd index athletes = .ok l) ↔
      ∀ ath ∈ athletes, ∀ p ∈ jd ath.2.2, ∀ q ∈ p.2, q.1 ≠ CallKey.other := by
  induction athletes generalizing index with
  | nil => simp [plotAthletes]
  | cons ath rest ih =>
      simp only [plotAthletes, List.mem_cons, forall_eq_or_imp]
      cases h1 : buildAthlete lv jd index ath with
      | ok a =>
          have h3 := (buildAthlete_ok_iff lv jd index ath).mp ⟨a, h1⟩
          cases h2 : plotAthletes lv jd (index + 1) rest with
          | ok tail =>
              have h4 := (ih (index + 1)).mp ⟨tail, h2⟩
              simp
              constructor
              · exact fun j2 calls2 hmem a yt2 rt2 hq =>
                  h3 (j2, calls2) hmem (a, yt2, rt2) hq
              · exact fun ln fn b hmem j2 calls2 hj a yt2 rt2 hq =>
                  h4 (ln, fn, b) hmem (j2, calls2) hj (a, yt2, rt2) hq
          | error e =>
              constructor
              · rintro ⟨l, hl⟩
                exact absurd hl (by simp)
              · rintro ⟨hq, hrest⟩
                obtain ⟨l, hl⟩ := (ih (index + 1)).mpr hrest
                rw [h2] at hl
                exact Except.noConfusion hl
      | error e =>
          constructor
          · rintro ⟨l, hl⟩
            exact absurd hl (by simp)
          · rintro ⟨hq, hrest⟩
            obtain ⟨a, ha⟩ := (buildAthlete_ok_iff lv jd index ath).mpr hq
            rw [h1] at ha
            exact Except.noConfusion ha

theorem buildJudgeGroups_error (samples : List (ℤ × ℚ)) (j : ℤ)
    (calls : List (CallKey × List ℤ × List ℤ)) (s : String)
    (h : buildJudgeGroups samples j calls = .error s) :
    s = "Unknown judge call type while plotting." := by
  induction calls with
  | nil => exact Except.noConfusion h
  | cons q rest ih =>
      obtain ⟨ct, yt, rt⟩ := q
      cases ct with
      | LOC =>
          simp only [buildJudgeGroups] at h
          cases h2 : buildJudgeGroups samples j rest with
          | ok tail => rw [h2] at h; exact Except.noConfusion h
          | error e =>
              rw [h2] at h
              injection h with h3
              exact ih (h3 ▸ h2)
      | BENT_KNEE =>
          simp only [buildJudgeGroups] at h
          cases h2 : buildJudgeGroups samples j rest with
          | ok tail => rw [h2] at h; exact Except.noConfusion h
          | error e =>
              rw [h2] at h
              injection h with h3
              exact ih (h3 ▸ h2)
      | other =>
          simp only [buildJudgeGroups] at h
          injection h with h3
          exact h3.symm

theorem buildGroups_error (samples : List (ℤ × ℚ))
    (pjc : List (ℤ × List (CallKey × List ℤ × List ℤ))) (s : String)
    (h : buildGroups samples pjc = .error s) :
    s = "Unknown judge call type while plotting." := by
  induction pjc with
  | nil => exact Except.noConfusion h
  | cons p rest ih =>
      obtain ⟨j, calls⟩ := p
      simp only [buildGroups] at h
      cases h1 : buildJudgeGroups samples j calls with
      | error e =>
          rw [h1] at h
          injection h with h3
          exact buildJudgeGroups_error samples j calls s (h3 ▸ h1)
      | ok head =>
          rw [h1] at h
          cases h2 : buildGroups samples rest with
          | ok tail => rw [h2] at h; exact Except.noConfusion h
          | error e =>
              rw [h2] at h
              injection h with h3
              exact ih (h3 ▸ h2)

theorem plotAthletes_error (lv : ℤ → List (ℤ × ℚ))
    (jd : ℤ → List (ℤ × List (CallKey × List ℤ × List ℤ)))
    (index : ℕ) (athletes : List (String × String × ℤ)) (s : String)
    (h : plotAthletes lv jd index athletes = .error s) :
    s = "Unknown judge call type while plotting." := by
  induction athletes generalizing index with
  | nil => exact Except.noConfusion h
  | cons ath rest ih =>
      simp only [plotAthletes] at h
      cases h1 : buildAthlete lv jd index ath with
      | error e =>
          rw [h1] at h
          injection h with h3
          subst h3
          unfold buildAthlete at h1
          cases h4 : buildGroups (lv ath.2.2) (jd ath.2.2) with
          | ok gs => rw [h4] at h1; exact Except.noConfusion h1
          | error e2 =>
              rw [h4] at h1
              injection h1 with h5
              exact buildGroups_error _ _ _ (h5 ▸ h4)
      | ok a =>
          rw [h1] at h
          cases h2 : plotAthletes lv jd (index + 1) rest with
          | ok tail => rw [h2] at h; exact Except.noConfusion h
          | error e =>
              rw [h2] at h
              injection h with h3
              exact ih (index + 1) (h3 ▸ h2)

/-- C7: `plot` raises (here: returns `Except.error`) exactly the message of
`RuntimeError("Unknown judge call type while plotting.")` if and only if the
judge-call input data of some plotted athlete contains a call-type key that
is neither `LOC` nor `BENT_KNEE`; the error aborts the whole build, and with
only recognized call types the build completes without error. -/
theorem plot_unknown_call_type (lv : ℤ → List (ℤ × ℚ))
    (jd : ℤ → List (ℤ × List (CallKey × List ℤ × List ℤ)))
    (athletes : List (String × String × ℤ)) (judges : List ℤ) (xlim ylim : ℚ × ℚ) :
    ((∃ c, LocGraph.plot lv jd athletes judges xlim ylim = .ok c) ↔
      ∀ ath ∈ athletes, ∀ p ∈ jd ath.2.2, ∀ q ∈ p.2, q.1 ≠ CallKey.other) ∧
    (∀ s, LocGraph.plot lv jd athletes judges xlim ylim = .error s →
      s = "Unknown judge call type while plotting.") := by
  constructor
  · rw [← plotAthletes_ok_iff lv jd 0 athletes]
    unfold LocGraph.plot
    cases h : plotAthletes lv jd 0 athletes with
    | ok l => simp
    | error e => simp
  · intro s h
    unfold LocGraph.plot at h
    cases h2 : plotAthletes lv jd 0 athletes with
    | ok plots => rw [h2] at h; exact Except.noConfusion h
    | error e =>
        rw [h2] at h
        injection h with h3
        exact plotAthletes_error lv jd 0 athletes s (h3 ▸ h2)

theorem buildJudgeGroups_shape (samples : List (ℤ × ℚ)) (j : ℤ)
    (calls : List (CallKey × List ℤ × List ℤ)) (gs : List GroupEntry)
    (h : buildJudgeGroups samples j calls = .ok gs) :
    ∀ ge ∈ gs, groupShape samples ge := by
  induction calls generalizing gs with
  | nil =>
      injection h with h2
      subst h2
      intro ge hge
      exact absurd hge (List.not_mem_nil ge)
  | cons q rest ih =>
      obtain ⟨ct, yt, rt⟩ := q
      cases ct with
      | LOC =>
          simp only [buildJudgeGroups] at h
          cases h2 : buildJudgeGroups samples j rest with
          | error e => rw [h2] at h; exact Except.noConfusion h
          | ok tail =>
              rw [h2] at h
              injection h with h3
              subst h3
              intro ge hge
              rcases List.mem_cons.mp hge with rfl | hge
              · exact ⟨rfl, rfl, rfl⟩
              · exact ih tail h2 ge hge
      | BENT_KNEE =>
          simp only [buildJudgeGroups] at h
          cases h2 : buildJudgeGroups samples j rest with
          | error e => rw [h2] at h; exact Except.noConfusion h
          | ok tail =>
              rw [h2] at h
              injection h with h3
              subst h3
              intro ge hge
              rcases List.mem_cons.mp hge with rfl | hge
              · exact ⟨rfl, rfl, rfl⟩
              · exact ih tail h2 ge hge
      | other => exact Except.noConfusion h

theorem buildGroups_shape (samples : List (ℤ × ℚ))
    (pjc : List (ℤ × List (CallKey × List ℤ × List ℤ))) (gs : List GroupEntry)
    (h : buildGroups samples pjc = .ok gs) :
    ∀ ge ∈ gs, groupShape samples ge := by
  induction pjc generalizing gs with
  | nil =>
      injection h with h2
      subst h2
      intro ge hge
      exact absurd hge (List.not_mem_nil ge)
  | cons p rest ih =>
      obtain ⟨j, calls⟩ := p
      simp only [buildGroups] at h
      cases h1 : buildJudgeGroups samples j calls with
      | error e => rw [h1] at h; exact Except.noConfusion h
      | ok head =>
          rw [h1] at h
          cases h2 : buildGroups samples rest with
          | error e => rw [h2] at h; exact Except.noConfusion h
          | ok tail =>
              rw [h2] at h
              injection h with h3
              subst h3
              intro ge hge
              rcases List.mem_append.mp hge with hge | hge
              · exact buildJudgeGroups_shape samples j calls head h1 ge hge
              · exact ih tail h2 ge hge

theorem buildAthlete_shape (lv : ℤ → List (ℤ × ℚ))
    (jd : ℤ → List (ℤ × List (CallKey × List ℤ × List ℤ)))
    (index : ℕ) (ath : String × String × ℤ) (a : AthleteEntry)
    (h : buildAthlete lv jd index ath = .ok a) :
    a.lineVisible = false ∧ a.annotation = Annotation.init ∧
      ∀ ge ∈ a.groups, groupShape a.samples ge := by
  unfold buildAthlete at h
  cases h1 : buildGroups (lv ath.2.2) (jd ath.2.2) with
  | error e => rw [h1] at h; exact Except.noConfusion h
  | ok gs =>
      rw [h1] at h
      injection h with h2
      subst h2
      exact ⟨rfl, rfl, buildGroups_shape (lv ath.2.2) (jd ath.2.2) gs h1⟩

theorem plotAthletes_shape (lv : ℤ → List (ℤ × ℚ))
    (jd : ℤ → List (ℤ × List (CallKey × List ℤ × List ℤ)))
    (index : ℕ) (athletes : List (String × String × ℤ)) (l : List AthleteEntry)
    (h : plotAthletes lv jd index athletes = .ok l) :
    ∀ a ∈ l, a.lineVisible = false ∧ a.annotation = Annotation.init ∧
      ∀ ge ∈ a.groups, groupShape a.samples ge := by
  induction athletes generalizing index l with
  | nil =>
      injection h with h2
      subst h2
      intro a ha
      exact absurd ha (List.not_mem_nil a)
  | cons ath rest ih =>
      simp only [plotAthletes] at h
      cases h1 : buildAthlete lv jd index ath with
      | error e => rw [h1] at h; exact Except.noConfusion h
      | ok a0 =>
          rw [h1] at h
          cases h2 : plotAthletes lv jd (index + 1) rest with
          | error e => rw [h2] at h; exact Except.noConfusion h
          | ok tail =>
              rw [h2] at h
              injection h with h3
              subst h3
              intro a ha
              rcases List.mem_cons.mp ha with rfl | ha
              · exact buildAthlete_shape lv jd index ath a h1
              · exact ih (index + 1) tail h2 a ha

theorem plot_shape (lv : ℤ → List (ℤ × ℚ))
    (jd : ℤ → List (ℤ × List (CallKey × List ℤ × List ℤ)))
    (athletes : List (String × String × ℤ)) (judges : List ℤ)
    (xlim ylim : ℚ × ℚ) (c : LocGraph)
    (h : LocGraph.plot lv jd athletes judges xlim ylim = .ok c) :
    ∀ a ∈ c.athletes, a.lineVisible = false ∧ a.annotation = Annotation.init ∧
      ∀ ge ∈ a.groups, groupShape a.samples ge := by
  unfold LocGraph.plot at h
  cases h1 : plotAthletes lv jd 0 athletes with
  | error e => rw [h1] at h; exact Except.noConfusion h
  | ok plots =>
      rw [h1] at h
      injection h with h2
      subst h2
      exact plotAthletes_shape lv jd 0 athletes plots h1

/-- `np.interp` at a query value bracketed by a consecutive pair of sample
points, all earlier sample points lying strictly before the query: the result
is the linear interpolation of the bracketing pair. -/
theorem np_interp_bracket (t x1 x2 y1 y2 : ℚ) (l1 l2 : List (ℚ × ℚ))
    (hlt : ∀ p ∈ l1, p.1 < t) (h1 : x1 < t) (h2 : t ≤ x2) :
    np_interp t (l1 ++ (x1, y1) :: (x2, y2) :: l2) =
      y1 + (y2 - y1) * (t - x1) / (x2 - x1) := by
  induction l1 with
  | nil => simp [np_interp, not_le.mpr h1, h2]
  | cons p l1 ih =>
      have hp : p.1 < t := hlt p (by simp)
      have hrest : ∀ q ∈ l1, q.1 < t := fun q hq => hlt q (by simp [hq])
      cases l1 with
      | nil => simp [np_interp, not_le.mpr hp, not_le.mpr h1, h2]
      | cons p2 l1t =>
          have hp2 : p2.1 < t := hrest p2 (by simp)
          have h3 := ih hrest
          simp only [List.cons_append] at h3 ⊢
          simp [np_interp, not_le.mpr hp, not_le.mpr hp2, h3]

/-- C6: in any chart built by `plot`, every marker group's yellow and red
Y-series are the linear interpolations of the marker event times onto the
owning athlete's own sampled series, and that interpolation, at any event
time bracketed by two consecutive sample times of the series, is the linear
interpolation of the two bracketing samples. -/
theorem plot_interpolates_markers (lv : ℤ → List (ℤ × ℚ))
    (jd : ℤ → List (ℤ × List (CallKey × List ℤ × List ℤ)))
    (athletes : List (String × String × ℤ)) (judges : List ℤ)
    (xlim ylim : ℚ × ℚ) (c : LocGraph)
    (hp : LocGraph.plot lv jd athletes judges xlim ylim = .ok c) :
    ∀ a ∈ c.athletes, ∀ ge ∈ a.groups,
      (ge.yellowY = ge.yellowTimes.map (interpAt a.samples) ∧
       ge.redY = ge.redTimes.map (interpAt a.samples)) ∧
      ∀ (l1 l2 : List (ℤ × ℚ)) (x1 x2 t : ℤ) (y1 y2 : ℚ),
        a.samples = l1 ++ (x1, y1) :: (x2, y2) :: l2 →
        (∀ p ∈ l1, p.1 < x1) →
        x1 < t → t ≤ x2 →
        interpAt a.samples t =
          y1 + (y2 - y1) * ((t : ℚ) - ((x1 : ℤ) : ℚ)) / (((x2 : ℤ) : ℚ) - ((x1 : ℤ) : ℚ)) := by
  intro a ha ge hge
  obtain ⟨-, -, hshape⟩ := plot_shape lv jd athletes judges xlim ylim c hp a ha
  obtain ⟨hy, hr, -⟩ := hshape ge hge
  refine ⟨⟨hy, hr⟩, ?_⟩
  intro l1 l2 x1 x2 t y1 y2 hs hlt h1 h2
  unfold interpAt interpPoints
  rw [hs]
  simp only [List.map_append, List.map_cons]
  apply np_interp_bracket
  · intro p hpm
    simp only [List.mem_map] at hpm
    obtain ⟨p0, hp0, rfl⟩ := hpm
    calc ((p0.1 : ℤ) : ℚ) < ((x1 : ℤ) : ℚ) := by exact_mod_cast hlt p0 hp0
      _ < (t : ℚ) := by exact_mod_cast h1
  · exact_mod_cast h1
  · exact_mod_cast h2

/-- Witness for C6: in the concrete built chart, the yellow marker at t=5,
between the samples (0, 0) and (10, 10), receives the interpolated value. -/
theorem plot_interpolates_markers_witness :
    (entry6.yellowY = entry6.yellowTimes.map (interpAt athlete6.samples) ∧
     entry6.redY = entry6.redTimes.map (interpAt athlete6.samples)) ∧
    interpAt athlete6.samples 5 =
      0 + (10 - 0) * (((5 : ℤ) : ℚ) - (((0 : ℤ) : ℤ) : ℚ)) /
        ((((10 : ℤ) : ℤ) : ℚ) - (((0 : ℤ) : ℤ) : ℚ)) := by
  have hy : interpAt [(0, 0), (10, 10)] 5 = 5 := by
    norm_num [interpAt, interpPoints, np_interp]
  have hp : LocGraph.plot lv0 jd0 ath0 [9] (0, 10) (0, 60) = .ok c6 := by
    simp only [LocGraph.plot, plotAthletes, buildAthlete, buildGroups,
      buildJudgeGroups, lv0, jd0, ath0, List.map_cons, List.map_nil, hy]
    rfl
  have h := plot_interpolates_markers lv0 jd0 ath0 [9] (0, 10) (0, 60) c6 hp
    athlete6 (by simp [c6]) entry6 (by simp [athlete6])
  exact ⟨h.1, h.2 [] [] 0 10 5 0 10 rfl (by simp) (by decide) (by decide)⟩

/-- Witness for C7: with the malformed `jdBad` data the build aborts with
exactly the `UnknownCallType` error, and the success-iff characterization
instantiates at that input. -/
theorem plot_unknown_call_type_witness :
    ((∃ c, LocGraph.plot lv0 jdBad ath0 [9] (0, 10) (0, 60) = .ok c) ↔
      ∀ ath ∈ ath0, ∀ p ∈ jdBad ath.2.2, ∀ q ∈ p.2, q.1 ≠ CallKey.other) ∧
    "Unknown judge call type while plotting." =
      "Unknown judge call type while plotting." :=
  ⟨(plot_unknown_call_type lv0 jdBad ath0 [9] (0, 10) (0, 60)).1,
   (plot_unknown_call_type lv0 jdBad ath0 [9] (0, 10) (0, 60)).2 _ rfl⟩

theorem groupInv_select (g : JudgeCallPlotGroup) (b : ℕ) :
    groupInv (g.select b) := by
  refine ⟨rfl, ?_⟩
  intro h
  simp only [JudgeCallPlotGroup.select, JudgeCallPlotGroup.get_visible,
    Bool.or_self, beq_iff_eq] at h
  exact h

theorem groupInv_deselect (g : JudgeCallPlotGroup) (b : ℕ) :
    groupInv (g.deselect b) :=
  ⟨rfl, fun h => nomatch h⟩

theorem groupInv_gUpd (op : FilterOp) (bib : ℤ) (ge : GroupEntry)
    (h : groupInv ge.g) : groupInv (gUpd op bib ge).g := by
  cases op with
  | byType ct shw =>
      simp only [gUpd]
      split
      · cases shw
        · exact groupInv_deselect ge.g Selection.TYPE
        · exact groupInv_select ge.g Selection.TYPE
      · exact h
  | byJudges sel =>
      simp only [gUpd]
      split
      · exact groupInv_select ge.g Selection.JUDGE
      · exact groupInv_deselect ge.g Selection.JUDGE
  | byAthletes sel =>
      simp only [gUpd]
      split
      · exact groupInv_select ge.g Selection.ATHLETE
      · exact groupInv_deselect ge.g Selection.ATHLETE

theorem chartInv_applyPure (op : FilterOp) (c : LocGraph) (h : chartInv c) :
    chartInv (applyPure op c) := by
  intro a ha ge hge
  simp only [applyPure, List.mem_map] at ha
  obtain ⟨a0, ha0, rfl⟩ := ha
  rw [aUpd_groups_eq] at hge
  simp only [List.mem_map] at hge
  obtain ⟨ge0, hge0, rfl⟩ := hge
  exact groupInv_gUpd op a0.bib ge0 (h a0 ha0 ge0 hge0)

theorem display_athletes_eq_applyPure (c : LocGraph) (sel : List ℤ) :
    c.display_athletes sel = applyPure (.byAthletes sel) c := by
  have h := applyFilter_byAthletes c sel
  simpa [applyFilter] using h

theorem display_judges_eq_applyPure (c : LocGraph) (sel : List ℤ) :
    c.display_judge_call_by_judges sel = applyPure (.byJudges sel) c := rfl

/-- C9: yellow and red marker series always share one visibility, and a
visible group's mask is `ALL`; the invariant holds for a freshly constructed
group (hidden, mask `NONE`), for every chart built by `plot`, and is
preserved by `select`, `deselect` and the three chart filters. -/
theorem marker_pair_invariant :
    groupInv ⟨false, false, Selection.NONE⟩ ∧
    (∀ (g : JudgeCallPlotGroup) (b : ℕ), groupInv (g.select b)) ∧
    (∀ (g : JudgeCallPlotGroup) (b : ℕ), groupInv (g.deselect b)) ∧
    (∀ (lv : ℤ → List (ℤ × ℚ))
        (jd : ℤ → List (ℤ × List (CallKey × List ℤ × List ℤ)))
        (athletes : List (String × String × ℤ)) (judges : List ℤ)
        (xlim ylim : ℚ × ℚ) (c : LocGraph),
        LocGraph.plot lv jd athletes judges xlim ylim = .ok c → chartInv c) ∧
    (∀ (c : LocGraph) (sel : List ℤ), chartInv c →
        chartInv (c.display_athletes sel)) ∧
    (∀ (c : LocGraph) (sel : List ℤ), chartInv c →
        chartInv (c.display_judge_call_by_judges sel)) ∧
    (∀ (c : LocGraph) (ct : JudgeCallType) (shw : Bool) (c2 : LocGraph),
        chartInv c → c.display_judge_call_by_type ct shw = .ok c2 →
        chartInv c2) := by
  refine ⟨⟨rfl, fun h => nomatch h⟩, groupInv_select, groupInv_deselect,
    ?_, ?_, ?_, ?_⟩
  · intro lv jd athletes judges xlim ylim c hp a ha ge hge
    obtain ⟨-, -, hshape⟩ := plot_shape lv jd athletes judges xlim ylim c hp a ha
    obtain ⟨-, -, hg⟩ := hshape ge hge
    rw [hg]
    exact ⟨rfl, fun h => nomatch h⟩
  · intro c sel h
    rw [display_athletes_eq_applyPure]
    exact chartInv_applyPure _ c h
  · intro c sel h
    rw [display_judges_eq_applyPure]
    exact chartInv_applyPure _ c h
  · intro c ct shw c2 h hok
    cases h3 : c.hasCallType ct with
    | true =>
        have := applyFilter_byType c ct shw h3
        simp only [applyFilter] at this
        rw [this] at hok
        injection hok with h4
        rw [← h4]
        exact chartInv_applyPure _ c h
    | false =>
        simp only [LocGraph.display_judge_call_by_type, h3] at hok
        exact Except.noConfusion hok

/-- Witness for C9 at concrete groups and charts. -/
theorem marker_pair_invariant_witness :
    groupInv ⟨false, false, Selection.NONE⟩ ∧
    groupInv (JudgeCallPlotGroup.select ⟨false, false, Selection.NONE⟩ Selection.TYPE) ∧
    groupInv (JudgeCallPlotGroup.deselect ⟨true, true, Selection.ALL⟩ Selection.JUDGE) ∧
    chartInv c6 ∧
    chartInv (chartOneLOC.display_athletes [1]) ∧
    chartInv (chartOneLOC.display_judge_call_by_judges [10]) ∧
    chartInv (applyPure (.byType JudgeCallType.LOC true) chartOneLOC) := by
  have hInv : chartInv chartOneLOC := by
    intro a ha ge hge
    fin_cases ha
    fin_cases hge
    exact ⟨rfl, fun h => nomatch h⟩
  have hy : interpAt [(0, 0), (10, 10)] 5 = 5 := by
    norm_num [interpAt, interpPoints, np_interp]
  have hp : LocGraph.plot lv0 jd0 ath0 [9] (0, 10) (0, 60) = .ok c6 := by
    simp only [LocGraph.plot, plotAthletes, buildAthlete, buildGroups,
      buildJudgeGroups, lv0, jd0, ath0, List.map_cons, List.map_nil, hy]
    rfl
  have hOk : chartOneLOC.display_judge_call_by_type JudgeCallType.LOC true =
      .ok (applyPure (.byType JudgeCallType.LOC true) chartOneLOC) := by
    have := applyFilter_byType chartOneLOC JudgeCallType.LOC true (by decide)
    simpa [applyFilter] using this
  exact ⟨marker_pair_invariant.1,
    marker_pair_invariant.2.1 _ _,
    marker_pair_invariant.2.2.1 _ _,
    marker_pair_invariant.2.2.2.1 lv0 jd0 ath0 [9] (0, 10) (0, 60) c6 hp,
    marker_pair_invariant.2.2.2.2.1 chartOneLOC [1] hInv,
    marker_pair_invariant.2.2.2.2.2.1 chartOneLOC [10] hInv,
    marker_pair_invariant.2.2.2.2.2.2 chartOneLOC JudgeCallType.LOC true _ hInv hOk⟩

theorem hoverStep_foldl_erase (c : LocGraph) (e : Event) (l : List AthleteEntry)
    (acc1 : List AthleteEntry) (prev : Option ℤ) (n : ℕ) :
    (l.foldl (hoverStep c e) (acc1, prev, n)).1.map
        (fun a => { a with annotation := Annotation.init }) =
      acc1.map (fun a => { a with annotation := Annotation.init }) ++
        l.map (fun a => { a with annotation := Annotation.init }) := by
  induction l generalizing acc1 prev n with
  | nil => simp
  | cons a l ih =>
      simp only [List.foldl_cons, List.map_cons]
      by_cases h1 : a.get_visible = false
      · simp only [hoverStep, h1, if_true]
        rw [ih]
        simp
      · simp only [hoverStep, h1, if_false]
        by_cases h2 : (hoverCollect e a.bib a.label a.groups).2.isEmpty = false
        · simp only [h2, if_true]
          rw [ih]
          simp
        · simp only [h2, if_false]
          by_cases h3 : a.annotation.visible
          · simp only [h3, if_true]
            rw [ih]
            simp
          · simp only [h3, if_false]
            rw [ih]
            simp

/-- C10: the hover pass never modifies any judge-call group's selection mask
nor the visibility of any athlete line or marker scatter; apart from the
athletes' annotations the chart is returned unchanged. -/
theorem on_hover_only_touches_annotations (c : LocGraph) (e : Event) :
    eraseAnnotations (c.on_hover e).1 = eraseAnnotations c := by
  unfold LocGraph.on_hover
  by_cases hin : e.inaxes
  · simp only [hin, if_true]
    unfold eraseAnnotations
    simp only [LocGraph.mk.injEq, and_true, true_and]
    rw [hoverStep_foldl_erase]
    simp
  · simp [hin]

theorem addCall_isEmpty (l : List String) (s : String) :
    (addCall l s).isEmpty = false := by
  unfold addCall
  split
  · rename_i h
    cases l with
    | nil => exact absurd h (List.not_mem_nil s)
    | cons a t => rfl
  · cases l <;> rfl

theorem scanScatter_isEmpty (e : Event) (bib : ℤ) (lbl : String)
    (ge : GroupEntry) (isRed : Bool) (acc : Option (ℚ × ℚ) × List String) :
    ((scanScatter e bib lbl ge isRed acc).2).isEmpty =
      (acc.2.isEmpty && !(e.hit bib ge.judge ge.callType isRed).isSome) := by
  unfold scanScatter
  cases e.hit bib ge.judge ge.callType isRed with
  | some p => simp [addCall_isEmpty]
  | none => simp

theorem hoverCollect_isEmpty_aux (e : Event) (bib : ℤ) (lbl : String)
    (groups : List GroupEntry) (acc : Option (ℚ × ℚ) × List String) :
    ((groups.foldl
        (fun acc ge => scanScatter e bib lbl ge true (scanScatter e bib lbl ge false acc))
        acc).2).isEmpty =
      (acc.2.isEmpty &&
        !(groups.any (fun ge =>
          (e.hit bib ge.judge ge.callType false).isSome ||
          (e.hit bib ge.judge ge.callType true).isSome))) := by
  induction groups generalizing acc with
  | nil => simp
  | cons ge gs ih =>
      simp only [List.foldl_cons, List.any_cons]
      rw [ih, scanScatter_isEmpty, scanScatter_isEmpty]
      cases acc.2.isEmpty <;>
        cases (e.hit bib ge.judge ge.callType false).isSome <;>
        cases (e.hit bib ge.judge ge.callType true).isSome <;> simp

theorem hoverCollect_isEmpty (e : Event) (a : AthleteEntry) :
    ((hoverCollect e a.bib a.label a.groups).2).isEmpty = !(athleteHit e a) := by
  unfold hoverCollect athleteHit
  rw [hoverCollect_isEmpty_aux]
  simp

theorem hoverStep_count (c : LocGraph) (e : Event)
    (acc : List AthleteEntry × Option ℤ × ℕ) (a : AthleteEntry) :
    (hoverStep c e acc a).2.2 =
      acc.2.2 +
        (if a.get_visible && (athleteHit e a || a.annotation.visible) then 1 else 0) := by
  unfold hoverStep
  by_cases h1 : a.get_visible = false
  · simp [h1]
  · have h1' : a.get_visible = true := by revert h1; cases a.get_visible <;> simp
    by_cases h2 : (hoverCollect e a.bib a.label a.groups).2.isEmpty = false
    · have hh : athleteHit e a = true := by
        have h4 := hoverCollect_isEmpty e a
        rw [h2] at h4
        revert h4
        cases athleteHit e a <;> simp
      simp [h1', h2, hh]
    · have h2' : (hoverCollect e a.bib a.label a.groups).2.isEmpty = true := by
        revert h2
        cases (hoverCollect e a.bib a.label a.groups).2.isEmpty <;> simp
      have hh : athleteHit e a = false := by
        have h4 := hoverCollect_isEmpty e a
        rw [h2'] at h4
        revert h4
        cases athleteHit e a <;> simp
      by_cases h3 : a.annotation.visible = true
      · simp [h1', h2', hh, h3]
      · have h3' : a.annotation.visible = false := by
          revert h3
          cases a.annotation.visible <;> simp
        simp [h1', h2', hh, h3']

theorem hoverStep_foldl_count (c : LocGraph) (e : Event) (l : List AthleteEntry)
    (acc : List AthleteEntry × Option ℤ × ℕ) :
    (l.foldl (hoverStep c e) acc).2.2 =
      acc.2.2 +
        l.countP (fun a => a.get_visible && (athleteHit e a || a.annotation.visible)) := by
  induction l generalizing acc with
  | nil => simp
  | cons a l ih =>
      rw [List.foldl_cons, ih (hoverStep c e acc a), hoverStep_count, List.countP_cons]
      cases hpa : (a.get_visible && (athleteHit e a || a.annotation.visible)) <;>
        simp [Nat.add_assoc, Nat.add_comm]

/-- C5 (amended): during one pointer-motion event, `on_hover` issues one
`draw_idle()` redraw request for each visible athlete series whose annotation
it touches — shown on a marker hit, or hidden when it was visible with no
hit — so an event may issue several redraw requests (at most one per plotted
athlete), not at most one per event; outside the axes none are issued. -/
theorem on_hover_redraw_count (c : LocGraph) (e : Event) :
    (c.on_hover e).2 =
      if e.inaxes = true then
        c.athletes.countP (fun a =>
          a.get_visible && (athleteHit e a || a.annotation.visible))
      else 0 := by
  unfold LocGraph.on_hover
  by_cases hin : e.inaxes <;> simp [hin, hoverStep_foldl_count]

/-- Counterexample to C5 as stated: one pointer-motion event over two visible
athletes with hit markers issues two redraw requests, not at most one. -/
theorem on_hover_two_redraws : ¬ ((chartTwoVisible.on_hover hoverEvent).2 ≤ 1) := by
  have h : (chartTwoVisible.on_hover hoverEvent).2 = 2 := rfl
  rw [h]
  decide
